import Mathlib

/- Verification development for the TelX social-feed backend (src/app.py).

   The Telegram WebApp signed-payload verifier (validate_telegram_data) and the
   social-graph route handlers (get_posts, create_post, toggle_like,
   get_comments, create_comment, toggle_follow, update_profile) are embedded
   shallowly below.

   Modelling conventions:
   - Python byte strings and str values fed to hashing are modelled as lists of
     naturals (their UTF-8 bytes).  All concrete inputs used in theorems are
     ASCII, where UTF-8 bytes and code points coincide.
   - hashlib.sha256 / hmac.new are embedded as executable SHA-256 / HMAC-SHA256
     over byte lists, checked against standard test vectors.
   - urllib.parse.parse_qs is embedded with its default arguments: chunks are
     split on 38, a chunk without 61 is dropped, a chunk with an empty
     value is dropped, names and values have 43 mapped to 32 and are then
     percent-decoded, and values are grouped per name in first-occurrence order.
   - json.loads is embedded as a small executable JSON parser over bytes;
     number lexemes are kept raw, and unicode escapes produce the code point.
   - The SQLAlchemy storage is modelled as lists of rows; fresh primary keys
     and timestamps are passed in explicitly.  SQL ORDER BY is modelled by
     insertion sort with the corresponding order relation, and flask-sqlalchemy
     paginate(error_out=False) by drop/take with its page arithmetic.
   - JSON serialization of responses (serialize_user and friends) is outside
     the scope of the claims and is not modelled. -/

namespace TelX

/-- Byte strings: lists of naturals, each below 256 by construction. -/
abbrev Bytes := List Nat

/-- UTF-8 bytes of a Lean string literal; used only for ASCII literals, where
this equals the Python str.encode() bytes. -/
def strBytes (s : String) : Bytes := s.data.map Char.toNat

/-- Truncation to a 32-bit word. -/
def w32 (n : Nat) : Nat := n % 4294967296

/-- Rotation of a 32-bit word to the right by n positions. -/
def rotr (n x : Nat) : Nat := ((x >>> n) ||| (x <<< (32 - n))) % 4294967296

/-- SHA-256 big sigma 0. -/
def bigS0 (x : Nat) : Nat := rotr 2 x ^^^ rotr 13 x ^^^ rotr 22 x

/-- SHA-256 big sigma 1. -/
def bigS1 (x : Nat) : Nat := rotr 6 x ^^^ rotr 11 x ^^^ rotr 25 x

/-- SHA-256 small sigma 0. -/
def smallS0 (x : Nat) : Nat := rotr 7 x ^^^ rotr 18 x ^^^ (x >>> 3)

/-- SHA-256 small sigma 1. -/
def smallS1 (x : Nat) : Nat := rotr 17 x ^^^ rotr 19 x ^^^ (x >>> 10)

/-- SHA-256 choice function. -/
def ch (x y z : Nat) : Nat := (x &&& y) ^^^ ((x ^^^ 4294967295) &&& z)

/-- SHA-256 majority function. -/
def maj (x y z : Nat) : Nat := (x &&& y) ^^^ (x &&& z) ^^^ (y &&& z)

/-- Round constants of SHA-256 (FIPS 180-4), written in decimal. -/
def shaK : List Nat :=
  [1116352408, 1899447441, 3049323471, 3921009573, 961987163, 1508970993,
   2453635748, 2870763221, 3624381080, 310598401, 607225278, 1426881987,
   1925078388, 2162078206, 2614888103, 3248222580, 3835390401, 4022224774,
   264347078, 604807628, 770255983, 1249150122, 1555081692, 1996064986,
   2554220882, 2821834349, 2952996808, 3210313671, 3336571891, 3584528711,
   113926993, 338241895, 666307205, 773529912, 1294757372, 1396182291,
   1695183700, 1986661051, 2177026350, 2456956037, 2730485921, 2820302411,
   3259730800, 3345764771, 3516065817, 3600352804, 4094571909, 275423344,
   430227734, 506948616, 659060556, 883997877, 958139571, 1322822218,
   1537002063, 1747873779, 1955562222, 2024104815, 2227730452, 2361852424,
   2428436474, 2756734187, 3204031479, 3329325298]

/-- A natural as 8 big-endian bytes. -/
def toBE8 (n : Nat) : Bytes :=
  [(n >>> 56) % 256, (n >>> 48) % 256, (n >>> 40) % 256, (n >>> 32) % 256,
   (n >>> 24) % 256, (n >>> 16) % 256, (n >>> 8) % 256, n % 256]

/-- A 32-bit word as 4 big-endian bytes. -/
def toBE4 (n : Nat) : Bytes :=
  [(n >>> 24) % 256, (n >>> 16) % 256, (n >>> 8) % 256, n % 256]

/-- SHA-256 message padding: append 0x80, zeros, and the 64-bit bit length. -/
def padMsg (msg : Bytes) : Bytes :=
  let L := msg.length
  let zeros := (64 - ((L + 9) % 64)) % 64
  msg ++ 128 :: List.replicate zeros 0 ++ toBE8 (8 * L)

/-- Bytes to big-endian 32-bit words. -/
def bytesToWords : Bytes → List Nat
  | a :: b :: c :: d :: rest => (((a * 256 + b) * 256 + c) * 256 + d) :: bytesToWords rest
  | _ => []

/-- Split a word list into 16-word blocks; fuel-based so the kernel can
evaluate it. -/
def chunk16F : Nat → List Nat → List (List Nat)
  | 0, _ => []
  | _, [] => []
  | fuel + 1, x :: rest => ((x :: rest).take 16) :: chunk16F fuel ((x :: rest).drop 16)

/-- Split a word list into 16-word blocks. -/
def chunk16 (l : List Nat) : List (List Nat) := chunk16F l.length l

/-- Append the next word of the SHA-256 message schedule. -/
def extendStep (w : List Nat) : List Nat :=
  let n := w.length
  w ++ [w32 (w.getD (n - 16) 0 + smallS0 (w.getD (n - 15) 0) + w.getD (n - 7) 0 + smallS1 (w.getD (n - 2) 0))]

/-- Extend a 16-word block by the given number of schedule words. -/
def schedule : List Nat → Nat → List Nat
  | w, 0 => w
  | w, k + 1 => schedule (extendStep w) k

/-- The eight 32-bit working variables of SHA-256. -/
structure H8 where
  a : Nat
  b : Nat
  c : Nat
  d : Nat
  e : Nat
  f : Nat
  g : Nat
  h : Nat

/-- One SHA-256 compression round. -/
def shaRound (st : H8) (kw : Nat × Nat) : H8 :=
  let t1 := w32 (st.h + bigS1 st.e + ch st.e st.f st.g + kw.1 + kw.2)
  let t2 := w32 (bigS0 st.a + maj st.a st.b st.c)
  ⟨w32 (t1 + t2), st.a, st.b, st.c, w32 (st.d + t1), st.e, st.f, st.g⟩

/-- Initial hash value of SHA-256 (FIPS 180-4), written in decimal. -/
def initH : H8 :=
  ⟨1779033703, 3144134277, 1013904242, 2773480762, 1359893119, 2600822924, 528734635, 1541459225⟩

/-- SHA-256 compression of one 16-word block. -/
def compress (st : H8) (block : List Nat) : H8 :=
  let w := schedule block 48
  let fin := (shaK.zip w).foldl shaRound st
  ⟨w32 (st.a + fin.a), w32 (st.b + fin.b), w32 (st.c + fin.c), w32 (st.d + fin.d),
   w32 (st.e + fin.e), w32 (st.f + fin.f), w32 (st.g + fin.g), w32 (st.h + fin.h)⟩

/-- SHA-256 of a byte string, as 32 digest bytes (hashlib.sha256). -/
def sha256 (msg : Bytes) : Bytes :=
  let st := (chunk16 (bytesToWords (padMsg msg))).foldl compress initH
  toBE4 st.a ++ toBE4 st.b ++ toBE4 st.c ++ toBE4 st.d ++ toBE4 st.e ++ toBE4 st.f ++ toBE4 st.g ++ toBE4 st.h

/-- HMAC-SHA256 keyed by key over msg (hmac.new(key, msg, hashlib.sha256)). -/
def hmacSha256 (key msg : Bytes) : Bytes :=
  let k0 := if key.length > 64 then sha256 key else key
  let kp := k0 ++ List.replicate (64 - k0.length) 0
  sha256 ((kp.map (fun b => b ^^^ 92)) ++ sha256 ((kp.map (fun b => b ^^^ 54)) ++ msg))

/-- Lowercase hexadecimal rendering of digest bytes (hexdigest), as bytes. -/
def bytesToHex (bs : Bytes) : Bytes :=
  bs.foldr (fun b acc =>
    (if b / 16 < 10 then 48 + b / 16 else 87 + b / 16) ::
    (if b % 16 < 10 then 48 + b % 16 else 87 + b % 16) :: acc) []

/-- Split a byte string at every occurrence of sep, like Python str.split with
a separator: an empty input gives one empty chunk. -/
def splitByte (sep : Nat) : Bytes → List Bytes
  | [] => [[]]
  | b :: rest =>
    if b = sep then [] :: splitByte sep rest
    else
      match splitByte sep rest with
      | [] => [[b]]
      | h :: t => (b :: h) :: t

/-- Split at the first occurrence of sep only (str.split(sep, 1) when sep
occurs); none when sep does not occur. -/
def splitFirst (sep : Nat) : Bytes → Option (Bytes × Bytes)
  | [] => none
  | b :: rest =>
    if b = sep then some ([], rest)
    else (splitFirst sep rest).map (fun p => (b :: p.1, p.2))

/-- Map 43 to 32, the plus-to-space step of query-string field decoding. -/
def plusToSpace (s : Bytes) : Bytes := s.map (fun b => if b = 43 then 32 else b)

/-- Value of an ASCII hex digit byte. -/
def hexVal (b : Nat) : Option Nat :=
  if 48 ≤ b ∧ b ≤ 57 then some (b - 48)
  else if 97 ≤ b ∧ b ≤ 102 then some (b - 87)
  else if 65 ≤ b ∧ b ≤ 70 then some (b - 55)
  else none

/-- Percent-decoding (urllib.parse.unquote at the byte level): a 37 followed
by two hex digits becomes one byte, anything else is kept as is. -/
def percentDecode : Bytes → Bytes
  | [] => []
  | 37 :: h1 :: h2 :: rest =>
    match hexVal h1, hexVal h2 with
    | some a, some b => (16 * a + b) :: percentDecode rest
    | _, _ => 37 :: percentDecode (h1 :: h2 :: rest)
  | b :: rest => b :: percentDecode rest

/-- Decoding applied to parse_qs names and values: plus-to-space, then
percent-decoding (unquote_plus). -/
def unquotePlus (s : Bytes) : Bytes := percentDecode (plusToSpace s)

/-- Parse one chunk between separators as parse_qsl does with the default
arguments: an empty chunk, a chunk without 61, and a chunk whose raw value is
empty are all dropped; otherwise name and value are decoded. -/
def chunkParse (chunk : Bytes) : Option (Bytes × Bytes) :=
  if chunk = [] then none
  else
    match splitFirst 61 chunk with
    | none => none
    | some (n, v) => if v = [] then none else some (unquotePlus n, unquotePlus v)

/-- The name-value pairs of a query string, in order (urllib.parse.parse_qsl
with default arguments). -/
def parse_qsl (qs : Bytes) : List (Bytes × Bytes) :=
  (splitByte 38 qs).filterMap chunkParse

/-- Append one value under a name, preserving first-occurrence key order. -/
def insertKV (acc : List (Bytes × List Bytes)) (k : Bytes) (v : Bytes) : List (Bytes × List Bytes) :=
  match acc with
  | [] => [(k, [v])]
  | (k1, vs) :: rest => if k1 = k then (k1, vs ++ [v]) :: rest else (k1, vs) :: insertKV rest k v

/-- Group parsed pairs by name (urllib.parse.parse_qs): a mapping from each
name to its list of values, keys in first-occurrence order. -/
def parse_qs (qs : Bytes) : List (Bytes × List Bytes) :=
  (parse_qsl qs).foldl (fun acc kv => insertKV acc kv.1 kv.2) []

/-- Dictionary lookup on the parse_qs result (dict.get). -/
def getVals (d : List (Bytes × List Bytes)) (k : Bytes) : Option (List Bytes) :=
  (d.find? (fun kv => kv.1 = k)).map (fun kv => kv.2)

/-- Whitespace bytes skipped by the JSON parser. -/
def isWsByte (b : Nat) : Bool := b = 32 || b = 9 || b = 10 || b = 13

/-- Drop leading JSON whitespace. -/
def skipWs (s : Bytes) : Bytes := s.dropWhile isWsByte

/-- ASCII digit test on a byte. -/
def isDigitByte (b : Nat) : Bool := 48 ≤ b && b ≤ 57

/-- JSON values as parsed from the user field (json.loads); number lexemes are
kept as their raw bytes. -/
inductive Json where
  | null
  | boolVal (b : Bool)
  | numVal (raw : Bytes)
  | strVal (s : Bytes)
  | arrVal (elems : List Json)
  | objVal (fields : List (Bytes × Json))

/-- Parse the body of a JSON string after the opening quote, handling escape
sequences; returns the decoded content and the rest after the closing quote. -/
def parseStringBody : Nat → Bytes → Bytes → Option (Bytes × Bytes)
  | 0, _, _ => none
  | _, [], _ => none
  | f + 1, b :: rest, acc =>
    if b = 34 then some (acc.reverse, rest)
    else if b = 92 then
      match rest with
      | 34 :: r => parseStringBody f r (34 :: acc)
      | 92 :: r => parseStringBody f r (92 :: acc)
      | 47 :: r => parseStringBody f r (47 :: acc)
      | 98 :: r => parseStringBody f r (8 :: acc)
      | 102 :: r => parseStringBody f r (12 :: acc)
      | 110 :: r => parseStringBody f r (10 :: acc)
      | 114 :: r => parseStringBody f r (13 :: acc)
      | 116 :: r => parseStringBody f r (9 :: acc)
      | 117 :: h1 :: h2 :: h3 :: h4 :: r =>
        match hexVal h1, hexVal h2, hexVal h3, hexVal h4 with
        | some x1, some x2, some x3, some x4 =>
          parseStringBody f r ((((x1 * 16 + x2) * 16 + x3) * 16 + x4) :: acc)
        | _, _, _, _ => none
      | _ => none
    else if b < 32 then none
    else parseStringBody f rest (b :: acc)

/-- Maximal run of digits and the rest. -/
def takeDigits (s : Bytes) : Bytes × Bytes := (s.takeWhile isDigitByte, s.dropWhile isDigitByte)

/-- Parse a JSON number lexeme (sign, integer part, optional fraction and
exponent); returns the raw lexeme and the rest. -/
def parseNumber (s : Bytes) : Option (Bytes × Bytes) :=
  let sp := match s with
            | 45 :: r => (([45] : Bytes), r)
            | _ => (([] : Bytes), s)
  let dp := takeDigits sp.2
  if dp.1 = [] then none
  else
    let fp := match dp.2 with
              | 46 :: r =>
                let fd := takeDigits r
                if fd.1 = [] then (([] : Bytes), dp.2) else (46 :: fd.1, fd.2)
              | _ => (([] : Bytes), dp.2)
    let ep := match fp.2 with
              | 101 :: 43 :: r => let ed := takeDigits r
                                  if ed.1 = [] then (([] : Bytes), fp.2) else (101 :: 43 :: ed.1, ed.2)
              | 101 :: 45 :: r => let ed := takeDigits r
                                  if ed.1 = [] then (([] : Bytes), fp.2) else (101 :: 45 :: ed.1, ed.2)
              | 101 :: r => let ed := takeDigits r
                            if ed.1 = [] then (([] : Bytes), fp.2) else (101 :: ed.1, ed.2)
              | 69 :: 43 :: r => let ed := takeDigits r
                                 if ed.1 = [] then (([] : Bytes), fp.2) else (69 :: 43 :: ed.1, ed.2)
              | 69 :: 45 :: r => let ed := takeDigits r
                                 if ed.1 = [] then (([] : Bytes), fp.2) else (69 :: 45 :: ed.1, ed.2)
              | 69 :: r => let ed := takeDigits r
                           if ed.1 = [] then (([] : Bytes), fp.2) else (69 :: ed.1, ed.2)
              | _ => (([] : Bytes), fp.2)
    some (sp.1 ++ dp.1 ++ fp.1 ++ ep.1, ep.2)

/-- Parse the items of a nonempty JSON array given a parser for one value and
the closing byte; consumes through the closing byte. -/
def parseListOf (pv : Bytes → Option (Json × Bytes)) (close : Nat) : Nat → Bytes → List Json → Option (List Json × Bytes)
  | 0, _, _ => none
  | g + 1, s, acc =>
    match pv s with
    | none => none
    | some (v, rest) =>
      match skipWs rest with
      | 44 :: r => parseListOf pv close g r (v :: acc)
      | c :: r => if c = close then some ((v :: acc).reverse, r) else none
      | [] => none

/-- Parse the members of a nonempty JSON object given a parser for one value;
consumes through the closing byte 125. -/
def parseObjOf (pv : Bytes → Option (Json × Bytes)) : Nat → Bytes → List (Bytes × Json) → Option (List (Bytes × Json) × Bytes)
  | 0, _, _ => none
  | g + 1, s, acc =>
    match skipWs s with
    | 34 :: r =>
      match parseStringBody r.length r [] with
      | none => none
      | some (key, rest) =>
        match skipWs rest with
        | 58 :: r2 =>
          match pv r2 with
          | none => none
          | some (v, rest2) =>
            match skipWs rest2 with
            | 44 :: r3 => parseObjOf pv g r3 ((key, v) :: acc)
            | 125 :: r3 => some (((key, v) :: acc).reverse, r3)
            | _ => none
        | _ => none
    | _ => none

/-- Parse one JSON value, fuel-based; returns the value and the rest. -/
def parseJsonVal : Nat → Bytes → Option (Json × Bytes)
  | 0, _ => none
  | f + 1, s =>
    match skipWs s with
    | [] => none
    | b :: rest =>
      if b = 110 then
        match rest with
        | 117 :: 108 :: 108 :: r => some (.null, r)
        | _ => none
      else if b = 116 then
        match rest with
        | 114 :: 117 :: 101 :: r => some (.boolVal true, r)
        | _ => none
      else if b = 102 then
        match rest with
        | 97 :: 108 :: 115 :: 101 :: r => some (.boolVal false, r)
        | _ => none
      else if b = 34 then
        match parseStringBody rest.length rest [] with
        | some (str, r) => some (.strVal str, r)
        | none => none
      else if b = 91 then
        match skipWs rest with
        | 93 :: r => some (.arrVal [], r)
        | _ => match parseListOf (parseJsonVal f) 93 (rest.length + 1) rest [] with
               | some (vs, r) => some (.arrVal vs, r)
               | none => none
      else if b = 123 then
        match skipWs rest with
        | 125 :: r => some (.objVal [], r)
        | _ => match parseObjOf (parseJsonVal f) (rest.length + 1) rest [] with
               | some (fs, r) => some (.objVal fs, r)
               | none => none
      else
        match parseNumber (b :: rest) with
        | some (raw, r) => some (.numVal raw, r)
        | none => none

/-- Parse a complete JSON document (json.loads): one value with only
whitespace after it; any parse failure yields none, mirroring the exception
handler around the whole verifier. -/
def jsonParse (s : Bytes) : Option Json :=
  match parseJsonVal (s.length + 1) s with
  | some (v, rest) => if skipWs rest = [] then some v else none
  | none => none

/-- Join byte strings with a single separator byte. -/
def joinBytes (sep : Nat) : List Bytes → Bytes
  | [] => []
  | [x] => x
  | x :: y :: t => x ++ sep :: joinBytes sep (y :: t)

/-- The name=value lines built from the parsed mapping for every name other
than hash, in dictionary order, using the first value per name. -/
def checkLines (parsed : List (Bytes × List Bytes)) : List Bytes :=
  parsed.filterMap (fun kv =>
    if kv.1 = strBytes "hash" then none
    else kv.2.head?.map (fun v => kv.1 ++ 61 :: v))

/-- The canonical data-check string of a parsed mapping: the name=value lines
sorted lexicographically and joined by newlines. -/
def dataCheckString (parsed : List (Bytes × List Bytes)) : Bytes :=
  joinBytes 10 (List.insertionSort (· ≤ ·) (checkLines parsed))

/-- Secret-key derivation per the spec, section 4.1 step 5: HMAC-SHA256 keyed
by the constant byte string WebAppData over the shared-secret bytes. -/
def specSecretKey (secret : Bytes) : Bytes := hmacSha256 (strBytes "WebAppData") secret

/-- Signature per the spec, section 4.1 step 6: HMAC-SHA256 of the canonical
check string under the derived key, rendered as lowercase hexadecimal. -/
def specSignature (secret check_string : Bytes) : Bytes :=
  bytesToHex (hmacSha256 (specSecretKey secret) check_string)

/-- The received hash value of a payload: first value of the hash field. -/
def receivedHash (parsed : List (Bytes × List Bytes)) : Option Bytes :=
  (getVals parsed (strBytes "hash")).bind List.head?

/-- The identity record extracted on success: the first value of the user
field, percent-decoded once more and parsed as JSON (json.loads(unquote(u))). -/
def extractUser (parsed : List (Bytes × List Bytes)) : Option Json :=
  match (getVals parsed (strBytes "user")).bind List.head? with
  | some u => if u = [] then none else jsonParse (percentDecode u)
  | none => none

/-- Core of validate_telegram_data on the already-parsed mapping. -/
def validateParsed (parsed : List (Bytes × List Bytes)) (bot_token : Bytes) : Option Json :=
  match receivedHash parsed with
  | none => none
  | some received =>
    if received = [] then none
    else
      let secret_key := hmacSha256 (strBytes "WebAppData") bot_token
      let calculated_hash := bytesToHex (hmacSha256 secret_key (dataCheckString parsed))
      if calculated_hash = received then extractUser parsed else none

/-- Shallow embedding of validate_telegram_data (src/app.py lines 90 to 126):
parse the init data, take the hash field, build the sorted newline-joined
check string from the remaining fields, compare the recomputed HMAC-SHA256
hex digest with the received hash, and on success parse the user field. -/
def validate_telegram_data (init_data bot_token : Bytes) : Option Json :=
  validateParsed (parse_qs init_data) bot_token

/-- A row of the User model. -/
structure UserRow where
  id : Nat
  telegram_id : Int
  username : Option String
  first_name : String
  last_name : Option String
  language_code : Option String
  photo_url : Option String
  bio : String
  created_at : Nat
  updated_at : Nat
deriving DecidableEq

/-- A row of the Post model. -/
structure PostRow where
  id : Nat
  user_id : Nat
  content : String
  image_url : Option String
  created_at : Nat
  updated_at : Nat
deriving DecidableEq

/-- A row of the Like model. -/
structure LikeRow where
  id : Nat
  user_id : Nat
  post_id : Nat
  created_at : Nat
deriving DecidableEq

/-- A row of the Comment model. -/
structure CommentRow where
  id : Nat
  user_id : Nat
  post_id : Nat
  content : String
  created_at : Nat
  updated_at : Nat
deriving DecidableEq

/-- A row of the Follow model. -/
structure FollowRow where
  id : Nat
  follower_id : Nat
  following_id : Nat
  created_at : Nat
deriving DecidableEq

/-- The storage state: the five tables as lists of rows. -/
structure DB where
  users : List UserRow
  posts : List PostRow
  likes : List LikeRow
  comments : List CommentRow
  follows : List FollowRow
deriving DecidableEq

/-- Number of likes of a post (Like.query.filter_by(post_id=...).count()). -/
def likeCountOf (db : DB) (pid : Nat) : Nat :=
  (db.likes.filter (fun l => l.post_id == pid)).length

/-- Python truthiness of the parsed X-User-ID value: absent or zero is falsy. -/
def pyTruthy : Option Nat → Bool
  | none => false
  | some n => n != 0

/-- Order of ORDER BY created_at DESC on posts. -/
def latestOrder (p q : PostRow) : Prop := q.created_at ≤ p.created_at

instance : DecidableRel latestOrder := fun p q => inferInstanceAs (Decidable (q.created_at ≤ p.created_at))

instance : IsTotal PostRow latestOrder := ⟨fun p q => Nat.le_total q.created_at p.created_at⟩

instance : IsTrans PostRow latestOrder := ⟨fun _ _ _ h1 h2 => Nat.le_trans h2 h1⟩

/-- Order of the trending query: like count descending, creation time
descending as tie-break. -/
def trendOrder (db : DB) (p q : PostRow) : Prop :=
  likeCountOf db q.id < likeCountOf db p.id ∨
    (likeCountOf db q.id = likeCountOf db p.id ∧ q.created_at ≤ p.created_at)

instance (db : DB) : DecidableRel (trendOrder db) := fun p q =>
  inferInstanceAs (Decidable (likeCountOf db q.id < likeCountOf db p.id ∨
    (likeCountOf db q.id = likeCountOf db p.id ∧ q.created_at ≤ p.created_at)))

instance (db : DB) : IsTotal PostRow (trendOrder db) := by
  constructor
  intro p q
  rcases Nat.lt_trichotomy (likeCountOf db q.id) (likeCountOf db p.id) with h | h | h
  · exact Or.inl (Or.inl h)
  · rcases Nat.le_total q.created_at p.created_at with h2 | h2
    · exact Or.inl (Or.inr ⟨h, h2⟩)
    · exact Or.inr (Or.inr ⟨h.symm, h2⟩)
  · exact Or.inr (Or.inl h)

instance (db : DB) : IsTrans PostRow (trendOrder db) := by
  constructor
  intro p q r h1 h2
  rcases h1 with h1 | ⟨h1a, h1b⟩ <;> rcases h2 with h2 | ⟨h2a, h2b⟩
  · exact Or.inl (Nat.lt_trans h2 h1)
  · exact Or.inl (h2a ▸ h1)
  · exact Or.inl (h1a ▸ h2)
  · exact Or.inr ⟨h2a.trans h1a, Nat.le_trans h2b h1b⟩

/-- Order of ORDER BY created_at DESC on comments. -/
def commentOrder (c d : CommentRow) : Prop := d.created_at ≤ c.created_at

instance : DecidableRel commentOrder := fun c d => inferInstanceAs (Decidable (d.created_at ≤ c.created_at))

instance : IsTotal CommentRow commentOrder := ⟨fun c d => Nat.le_total d.created_at c.created_at⟩

instance : IsTrans CommentRow commentOrder := ⟨fun _ _ _ h1 h2 => Nat.le_trans h2 h1⟩

/-- A page of the feed with its pagination metadata. -/
structure FeedPage where
  items : List PostRow
  page : Nat
  pages : Nat
  total : Nat
  has_next : Bool
  has_prev : Bool
deriving DecidableEq

/-- Pagination of an ordered row list, per flask-sqlalchemy paginate with
error_out=False: a page or page size below 1 falls back to the default (1
and 20), pages is the ceiling of total over per_page, has_next is
page < pages and has_prev is page > 1. -/
def paginate (l : List PostRow) (page per_page : Nat) : FeedPage :=
  let p := if page = 0 then 1 else page
  let pp := if per_page = 0 then 20 else per_page
  let total := l.length
  let pages := (total + pp - 1) / pp
  ⟨(l.drop ((p - 1) * pp)).take pp, p, pages, total, decide (p < pages), decide (p > 1)⟩

/-- Shallow embedding of the feed read (get_posts, src/app.py lines 247 to
292): the following branch is taken only when the filter is following and the
viewer id is truthy; the trending branch keeps posts that join to at least one
like, ordered by like count descending then creation time descending; every
other case orders all posts by creation time descending. -/
def get_posts (db : DB) (current_user_id : Option Nat) (filter_type : String) (page per_page : Nat) : FeedPage :=
  if filter_type == "following" && pyTruthy current_user_id then
    let uid := current_user_id.getD 0
    let following_ids := (db.follows.filter (fun f => f.follower_id == uid)).map (fun f => f.following_id)
    paginate (List.insertionSort latestOrder (db.posts.filter (fun p => following_ids.contains p.user_id))) page per_page
  else if filter_type == "trending" then
    paginate (List.insertionSort (trendOrder db) (db.posts.filter (fun p => db.likes.any (fun l => l.post_id == p.id)))) page per_page
  else
    paginate (List.insertionSort latestOrder db.posts) page per_page

/-- Python str.strip whitespace test (the ASCII whitespace characters; the
rare further Unicode space characters do not occur in any input considered). -/
def pySpace (c : Char) : Bool :=
  c = ' ' || c = '\t' || c = '\n' || c = '\r' || c.toNat = 11 || c.toNat = 12

/-- Python str.strip: drop leading and trailing whitespace. -/
def pyStrip (s : String) : String :=
  ⟨((s.data.dropWhile pySpace).reverse.dropWhile pySpace).reverse⟩

/-- Result of the post-creation route. -/
inductive PostCreateResult where
  | created (p : PostRow)
  | unauthenticated
  | invalidContent
deriving DecidableEq

/-- Shallow embedding of create_post (src/app.py lines 294 to 320): require a
caller id, strip the content, reject the empty string or more than 280
characters with the single validation error of the code, else persist. -/
def create_post (db : DB) (current_user_id : Option Nat) (content_raw : Option String) (image_url : Option String) (newId ts : Nat) : DB × PostCreateResult :=
  match current_user_id with
  | none => (db, .unauthenticated)
  | some uid =>
    let content := pyStrip (content_raw.getD "")
    if content == "" || content.length > 280 then (db, .invalidContent)
    else
      let p : PostRow := ⟨newId, uid, content, image_url, ts, ts⟩
      ({ db with posts := db.posts ++ [p] }, .created p)

/-- Result of the comment-creation route. -/
inductive CommentCreateResult where
  | created (c : CommentRow)
  | unauthenticated
  | invalidContent
  | notFound
deriving DecidableEq

/-- Shallow embedding of create_comment (src/app.py lines 373 to 400): same
content validation as create_post, then 404 when the post is absent, else
persist. -/
def create_comment (db : DB) (current_user_id : Option Nat) (post_id : Nat) (content_raw : Option String) (newId ts : Nat) : DB × CommentCreateResult :=
  match current_user_id with
  | none => (db, .unauthenticated)
  | some uid =>
    let content := pyStrip (content_raw.getD "")
    if content == "" || content.length > 280 then (db, .invalidContent)
    else
      match db.posts.find? (fun p => p.id == post_id) with
      | none => (db, .notFound)
      | some _ =>
        let c : CommentRow := ⟨newId, uid, post_id, content, ts, ts⟩
        ({ db with comments := db.comments ++ [c] }, .created c)

/-- Result of the like-toggle route. -/
inductive LikeResult where
  | liked (likes_count : Nat)
  | unliked (likes_count : Nat)
  | unauthenticated
  | notFound
deriving DecidableEq

/-- Shallow embedding of toggle_like (src/app.py lines 322 to 356): require a
caller id, 404 when the post is absent, delete the existing like row for the
pair or insert a new one, and report the like count after the commit. -/
def toggle_like (db : DB) (current_user_id : Option Nat) (post_id : Nat) (newId ts : Nat) : DB × LikeResult :=
  match current_user_id with
  | none => (db, .unauthenticated)
  | some uid =>
    match db.posts.find? (fun p => p.id == post_id) with
    | none => (db, .notFound)
    | some _ =>
      match db.likes.find? (fun l => l.user_id == uid && l.post_id == post_id) with
      | some l =>
        let db2 : DB := { db with likes := db.likes.filter (fun x => x.id != l.id) }
        (db2, .unliked (likeCountOf db2 post_id))
      | none =>
        let db2 : DB := { db with likes := db.likes ++ [⟨newId, uid, post_id, ts⟩] }
        (db2, .liked (likeCountOf db2 post_id))

/-- Result of the follow-toggle route. -/
inductive FollowResult where
  | followed
  | unfollowed
  | selfFollowRejected
  | unauthenticated
  | notFound
deriving DecidableEq

/-- Shallow embedding of toggle_follow (src/app.py lines 402 to 437): require
a caller id, reject follower equal to target before any storage access, 404
when the target is absent, delete the existing follow row for the ordered
pair or insert a new one. -/
def toggle_follow (db : DB) (current_user_id : Option Nat) (user_id : Nat) (newId ts : Nat) : DB × FollowResult :=
  match current_user_id with
  | none => (db, .unauthenticated)
  | some uid =>
    if uid = user_id then (db, .selfFollowRejected)
    else
      match db.users.find? (fun u => u.id == user_id) with
      | none => (db, .notFound)
      | some _ =>
        match db.follows.find? (fun f => f.follower_id == uid && f.following_id == user_id) with
        | some f =>
          ({ db with follows := db.follows.filter (fun x => x.id != f.id) }, .unfollowed)
        | none =>
          ({ db with follows := db.follows ++ [⟨newId, uid, user_id, ts⟩] }, .followed)

/-- Shallow embedding of get_comments (src/app.py lines 358 to 371): 404 when
the post is absent, else all comments of the post ordered by creation time
descending. -/
def get_comments (db : DB) (post_id : Nat) : Option (List CommentRow) :=
  match db.posts.find? (fun p => p.id == post_id) with
  | none => none
  | some _ => some (List.insertionSort commentOrder (db.comments.filter (fun c => c.post_id == post_id)))

/-- Result of the profile-update route. -/
inductive ProfileResult where
  | updated (u : UserRow)
  | unauthenticated
  | notFound
deriving DecidableEq

/-- Shallow embedding of update_profile (src/app.py lines 471 to 491): require
a caller id, 404 when the account is absent, set the bio to the first 160
characters of the bio field when the request body has one (every other body
field is ignored), refresh updated_at, and persist. -/
def update_profile (db : DB) (current_user_id : Option Nat) (body : List (String × String)) (ts : Nat) : DB × ProfileResult :=
  match current_user_id with
  | none => (db, .unauthenticated)
  | some uid =>
    match db.users.find? (fun u => u.id == uid) with
    | none => (db, .notFound)
    | some u =>
      let u2 : UserRow :=
        { u with
          bio := match body.lookup "bio" with
                 | some b => b.take 160
                 | none => u.bio
          updated_at := ts }
      ({ db with users := db.users.map (fun x => if x.id == u.id then u2 else x) }, .updated u2)

/-- Finding in an appended singleton when nothing before matches. -/
lemma find?_append_last {α : Type} (l : List α) (p : α → Bool) (x : α)
    (h : ∀ y ∈ l, p y = false) (hx : p x = true) :
    (l ++ [x]).find? p = some x := by
  induction l with
  | nil => simp [List.find?, hx]
  | cons a t ih =>
    have ha := h a (by simp)
    simp only [List.cons_append, List.find?_cons, ha]
    exact ih (fun y hy => h y (by simp [hy]))

/-- A filter that keeps every element of a list restores it. -/
lemma filter_all_true {α : Type} (l : List α) (p : α → Bool) (h : ∀ y ∈ l, p y = true) :
    l.filter p = l :=
  List.filter_eq_self.mpr h

/-- Pointwise relation between a list and its map. -/
lemma forall2_map_of_mem {α β : Type} (l : List α) (f : α → β) (R : α → β → Prop)
    (h : ∀ x ∈ l, R x (f x)) : List.Forall₂ R l (l.map f) := by
  induction l with
  | nil => simp
  | cons a t ih =>
    simp only [List.map_cons]
    exact List.Forall₂.cons (h a (by simp)) (ih (fun x hx => h x (by simp [hx])))

/-- Two members of a list with no duplicate keys that agree on the key are
equal. -/
lemma mem_eq_of_nodup_keys {α : Type} {κ : Type} (l : List α) (key : α → κ)
    (hnd : (l.map key).Nodup) {x y : α} (hx : x ∈ l) (hy : y ∈ l)
    (hk : key x = key y) : x = y := by
  induction l with
  | nil => cases hx
  | cons a t ih =>
    simp only [List.map_cons, List.nodup_cons] at hnd
    rcases List.mem_cons.mp hx with rfl | hx2
    · rcases List.mem_cons.mp hy with rfl | hy2
      · rfl
      · exact absurd (hk ▸ List.mem_map_of_mem key hy2) hnd.1
    · rcases List.mem_cons.mp hy with rfl | hy2
      · exact absurd (hk ▸ List.mem_map_of_mem key hx2) hnd.1
      · exact ih hnd.2 hx2 hy2

/-- Claim C6: for every storage state and every caller identity, a
follow-toggle request whose target equals the caller is rejected with the
self-follow error and returns the storage state unchanged, creating and
deleting no follow row. -/
theorem self_follow_rejected (db : DB) (uid newId ts : Nat) :
    toggle_follow db (some uid) uid newId ts = (db, FollowResult.selfFollowRejected) := by
  simp [toggle_follow]

/-- Claim C5: post and comment creation reject a body that is empty after
stripping, and a body whose stripped length exceeds 280 characters, with the
single validation rejection of the code, leaving storage unchanged; a body
whose stripped length is exactly 280 is accepted and persisted (for comments,
when the post exists). -/
theorem content_validation_bounds (db : DB) (uid : Nat) (raw : String)
    (img : Option String) (pid newId ts : Nat) :
    (pyStrip raw = "" →
      create_post db (some uid) (some raw) img newId ts = (db, PostCreateResult.invalidContent)) ∧
    ((pyStrip raw).length > 280 →
      create_post db (some uid) (some raw) img newId ts = (db, PostCreateResult.invalidContent)) ∧
    ((pyStrip raw).length = 280 →
      create_post db (some uid) (some raw) img newId ts =
        ({ db with posts := db.posts ++ [⟨newId, uid, pyStrip raw, img, ts, ts⟩] },
         PostCreateResult.created ⟨newId, uid, pyStrip raw, img, ts, ts⟩)) ∧
    (pyStrip raw = "" →
      create_comment db (some uid) pid (some raw) newId ts = (db, CommentCreateResult.invalidContent)) ∧
    ((pyStrip raw).length > 280 →
      create_comment db (some uid) pid (some raw) newId ts = (db, CommentCreateResult.invalidContent)) ∧
    ((pyStrip raw).length = 280 → (db.posts.find? (fun p => p.id == pid)).isSome = true →
      create_comment db (some uid) pid (some raw) newId ts =
        ({ db with comments := db.comments ++ [⟨newId, uid, pid, pyStrip raw, ts, ts⟩] },
         CommentCreateResult.created ⟨newId, uid, pid, pyStrip raw, ts, ts⟩)) := by
  refine ⟨?_, ?_, ?_, ?_, ?_, ?_⟩
  · intro h; simp [create_post, h]
  · intro h; simp [create_post, h]
  · intro h
    have hne : ¬(pyStrip raw = "") := by
      intro he; rw [he] at h; simp at h
    simp [create_post, hne, h]
  · intro h; simp [create_comment, h]
  · intro h; simp [create_comment, h]
  · intro h hfind
    have hne : ¬(pyStrip raw = "") := by
      intro he; rw [he] at h; simp at h
    rcases Option.isSome_iff_exists.mp hfind with ⟨p, hp⟩
    simp [create_comment, hne, h, hp]

set_option maxRecDepth 40000 in
/-- Claim C5 witness: a 280-character body is accepted by both creations, a
whitespace-only body and a 281-character body are rejected. -/
theorem content_validation_witness :
    (pyStrip ⟨List.replicate 280 'a'⟩).length = 280 ∧
    create_post ⟨[], [⟨1, 1, "p", none, 0, 0⟩], [], [], []⟩ (some 1) (some ⟨List.replicate 280 'a'⟩) none 2 9 =
      (⟨[], [⟨1, 1, "p", none, 0, 0⟩, ⟨2, 1, pyStrip ⟨List.replicate 280 'a'⟩, none, 9, 9⟩], [], [], []⟩,
       PostCreateResult.created ⟨2, 1, pyStrip ⟨List.replicate 280 'a'⟩, none, 9, 9⟩) ∧
    create_post ⟨[], [], [], [], []⟩ (some 1) (some "  ") none 2 9 = (⟨[], [], [], [], []⟩, PostCreateResult.invalidContent) ∧
    create_comment ⟨[], [⟨1, 1, "p", none, 0, 0⟩], [], [], []⟩ (some 1) 1 (some ⟨List.replicate 281 'b'⟩) 2 9 =
      (⟨[], [⟨1, 1, "p", none, 0, 0⟩], [], [], []⟩, CommentCreateResult.invalidContent) := by
  have h280 : (pyStrip ⟨List.replicate 280 'a'⟩).length = 280 := by decide
  refine ⟨h280, ?_, ?_, ?_⟩
  · exact (content_validation_bounds ⟨[], [⟨1, 1, "p", none, 0, 0⟩], [], [], []⟩ 1
      ⟨List.replicate 280 'a'⟩ none 0 2 9).2.2.1 h280
  · exact (content_validation_bounds ⟨[], [], [], [], []⟩ 1 "  " none 0 2 9).1 (by decide)
  · exact (content_validation_bounds ⟨[], [⟨1, 1, "p", none, 0, 0⟩], [], [], []⟩ 1
      ⟨List.replicate 281 'b'⟩ none 1 2 9).2.2.2.2.1 (by decide)

/-- Claim C7: when the account exists and the request body carries a bio
field, the profile update is accepted (never rejected for length) and persists
exactly the first 160 characters of the supplied bio. -/
theorem bio_truncated_to_160 (db : DB) (u : UserRow) (uid : Nat)
    (body : List (String × String)) (b : String) (ts : Nat)
    (hfind : db.users.find? (fun x => x.id == uid) = some u)
    (hbio : body.lookup "bio" = some b) :
    update_profile db (some uid) body ts =
      ({ db with users := db.users.map (fun x =>
          if x.id == u.id then { u with bio := b.take 160, updated_at := ts } else x) },
       ProfileResult.updated { u with bio := b.take 160, updated_at := ts }) := by
  simp [update_profile, hfind, hbio]

set_option maxRecDepth 40000 in
/-- Claim C7 witness: updating with a 200-character bio persists exactly the
first 160 characters. -/
theorem bio_truncated_witness :
    (⟨List.replicate 200 'x'⟩ : String).take 160 = (⟨List.replicate 160 'x'⟩ : String) ∧
    update_profile ⟨[⟨1, 7, none, "A", none, none, none, "", 0, 0⟩], [], [], [], []⟩ (some 1) [("bio", ⟨List.replicate 200 'x'⟩)] 9 =
      (⟨[⟨1, 7, none, "A", none, none, none, (⟨List.replicate 200 'x'⟩ : String).take 160, 0, 9⟩], [], [], [], []⟩,
       ProfileResult.updated ⟨1, 7, none, "A", none, none, none, (⟨List.replicate 200 'x'⟩ : String).take 160, 0, 9⟩) := by
  constructor
  · decide
  · exact bio_truncated_to_160 ⟨[⟨1, 7, none, "A", none, none, none, "", 0, 0⟩], [], [], [], []⟩
      ⟨1, 7, none, "A", none, none, none, "", 0, 0⟩ 1 [("bio", ⟨List.replicate 200 'x'⟩)]
      ⟨List.replicate 200 'x'⟩ 9 (by decide) (by simp [List.lookup])

/-- Claim C2 counterexample: with filter following and no viewer supplied, a
state with one post yields that post, not an empty result set, and the page
coincides with the latest page. -/
theorem following_no_viewer_not_empty :
    (get_posts ⟨[], [⟨1, 1, "hello", none, 5, 5⟩], [], [], []⟩ none "following" 1 20).items =
      [⟨1, 1, "hello", none, 5, 5⟩] ∧
    (get_posts ⟨[], [⟨1, 1, "hello", none, 5, 5⟩], [], [], []⟩ none "following" 1 20).items ≠ [] ∧
    get_posts ⟨[], [⟨1, 1, "hello", none, 5, 5⟩], [], [], []⟩ none "following" 1 20 =
      get_posts ⟨[], [⟨1, 1, "hello", none, 5, 5⟩], [], [], []⟩ none "latest" 1 20 := by
  refine ⟨by decide, by decide, by decide⟩

/-- Claim C2 amended: with filter following and no viewer supplied the code
falls back to the latest feed over all posts; the empty result set holds only
when a truthy viewer id is supplied, in particular one with no follow edges. -/
theorem following_no_viewer_falls_back_to_latest (db : DB) (page pp : Nat) :
    get_posts db none "following" page pp = get_posts db none "latest" page pp ∧
    (∀ uid : Nat, uid ≠ 0 → db.follows.filter (fun f => f.follower_id == uid) = [] →
      (get_posts db (some uid) "following" page pp).items = []) := by
  constructor
  · rfl
  · intro uid hu hf
    have htr : pyTruthy (some uid) = true := by simp [pyTruthy, hu]
    simp [get_posts, htr, hf, paginate]

/-- Claim C2 amended witness: a viewer with no follow edges gets an empty
following page, while the same state with no viewer falls back to latest. -/
theorem following_fallback_witness :
    get_posts ⟨[], [⟨1, 1, "hello", none, 5, 5⟩], [], [], []⟩ none "following" 1 20 =
      get_posts ⟨[], [⟨1, 1, "hello", none, 5, 5⟩], [], [], []⟩ none "latest" 1 20 ∧
    (get_posts ⟨[], [⟨1, 1, "hello", none, 5, 5⟩], [], [], []⟩ (some 1) "following" 1 20).items = [] := by
  exact ⟨(following_no_viewer_falls_back_to_latest ⟨[], [⟨1, 1, "hello", none, 5, 5⟩], [], [], []⟩ 1 20).1,
    (following_no_viewer_falls_back_to_latest ⟨[], [⟨1, 1, "hello", none, 5, 5⟩], [], [], []⟩ 1 20).2 1
      (by decide) (by decide)⟩

/-- Like toggling twice from a state without the pair row: the first call
appends exactly one row, the second removes it and restores the state. -/
lemma toggle_like_roundtrip_aux (db : DB) (uid pid id1 id2 ts1 ts2 : Nat)
    (hpost : (db.posts.find? (fun p => p.id == pid)).isSome = true)
    (hnolike : ∀ l ∈ db.likes, ¬(l.user_id = uid ∧ l.post_id = pid))
    (hfresh : ∀ l ∈ db.likes, l.id ≠ id1) :
    (toggle_like db (some uid) pid id1 ts1).1.likes = db.likes ++ [⟨id1, uid, pid, ts1⟩] ∧
    ((toggle_like db (some uid) pid id1 ts1).1.likes.filter
        (fun l => l.user_id == uid && l.post_id == pid)).length = 1 ∧
    (toggle_like (toggle_like db (some uid) pid id1 ts1).1 (some uid) pid id2 ts2).1 = db := by
  obtain ⟨us, ps, ls, cs, fs⟩ := db
  simp only at hnolike hfresh hpost
  rcases Option.isSome_iff_exists.mp hpost with ⟨p0, hp0⟩
  have hmatch : ∀ l ∈ ls, (l.user_id == uid && l.post_id == pid) = false := by
    intro l hl
    have := hnolike l hl
    simp only [Bool.and_eq_false_iff, beq_eq_false_iff_ne, ne_eq]
    by_cases h1 : l.user_id = uid
    · exact Or.inr (fun h2 => this ⟨h1, h2⟩)
    · exact Or.inl h1
  have hfindnone : ls.find? (fun l => l.user_id == uid && l.post_id == pid) = none := by
    apply List.find?_eq_none.mpr
    intro x hx
    simp [hmatch x hx]
  have hrow : ((⟨id1, uid, pid, ts1⟩ : LikeRow).user_id == uid &&
      (⟨id1, uid, pid, ts1⟩ : LikeRow).post_id == pid) = true := by simp
  have hstep1 : (toggle_like ⟨us, ps, ls, cs, fs⟩ (some uid) pid id1 ts1).1 =
      ⟨us, ps, ls ++ [⟨id1, uid, pid, ts1⟩], cs, fs⟩ := by
    simp [toggle_like, hp0, hfindnone]
  refine ⟨by rw [hstep1], ?_, ?_⟩
  · rw [hstep1]
    simp only [List.filter_append]
    rw [List.filter_eq_nil_iff.mpr (by intro a ha; simp [hmatch a ha])]
    simp [hrow]
  · rw [hstep1]
    have hfind2 : List.find? (fun l => l.user_id == uid && l.post_id == pid)
        (ls ++ [(⟨id1, uid, pid, ts1⟩ : LikeRow)]) = some ⟨id1, uid, pid, ts1⟩ :=
      find?_append_last ls (fun l => l.user_id == uid && l.post_id == pid) ⟨id1, uid, pid, ts1⟩ hmatch hrow
    simp only [toggle_like, hp0, hfind2]
    simp only [List.filter_append]
    rw [filter_all_true ls _ (by intro y hy; simpa using hfresh y hy)]
    simp

/-- Follow toggling twice from a state without the pair row: the first call
appends exactly one row, the second removes it and restores the state. -/
lemma toggle_follow_roundtrip_aux (db : DB) (uid tid id1 id2 ts1 ts2 : Nat)
    (hne : uid ≠ tid)
    (huser : (db.users.find? (fun u => u.id == tid)).isSome = true)
    (hnofollow : ∀ f ∈ db.follows, ¬(f.follower_id = uid ∧ f.following_id = tid))
    (hfresh : ∀ f ∈ db.follows, f.id ≠ id1) :
    (toggle_follow db (some uid) tid id1 ts1).1.follows = db.follows ++ [⟨id1, uid, tid, ts1⟩] ∧
    ((toggle_follow db (some uid) tid id1 ts1).1.follows.filter
        (fun f => f.follower_id == uid && f.following_id == tid)).length = 1 ∧
    (toggle_follow (toggle_follow db (some uid) tid id1 ts1).1 (some uid) tid id2 ts2).1 = db := by
  obtain ⟨us, ps, ls, cs, fs⟩ := db
  simp only at hnofollow hfresh huser
  rcases Option.isSome_iff_exists.mp huser with ⟨u0, hu0⟩
  have hmatch : ∀ f ∈ fs, (f.follower_id == uid && f.following_id == tid) = false := by
    intro f hf
    have := hnofollow f hf
    simp only [Bool.and_eq_false_iff, beq_eq_false_iff_ne, ne_eq]
    by_cases h1 : f.follower_id = uid
    · exact Or.inr (fun h2 => this ⟨h1, h2⟩)
    · exact Or.inl h1
  have hfindnone : fs.find? (fun f => f.follower_id == uid && f.following_id == tid) = none := by
    apply List.find?_eq_none.mpr
    intro x hx
    simp [hmatch x hx]
  have hrow : ((⟨id1, uid, tid, ts1⟩ : FollowRow).follower_id == uid &&
      (⟨id1, uid, tid, ts1⟩ : FollowRow).following_id == tid) = true := by simp
  have hstep1 : (toggle_follow ⟨us, ps, ls, cs, fs⟩ (some uid) tid id1 ts1).1 =
      ⟨us, ps, ls, cs, fs ++ [⟨id1, uid, tid, ts1⟩]⟩ := by
    simp [toggle_follow, hne, hu0, hfindnone]
  refine ⟨by rw [hstep1], ?_, ?_⟩
  · rw [hstep1]
    simp only [List.filter_append]
    rw [List.filter_eq_nil_iff.mpr (by intro a ha; simp [hmatch a ha])]
    simp [hrow]
  · rw [hstep1]
    have hfind2 : List.find? (fun f => f.follower_id == uid && f.following_id == tid)
        (fs ++ [(⟨id1, uid, tid, ts1⟩ : FollowRow)]) = some ⟨id1, uid, tid, ts1⟩ :=
      find?_append_last fs (fun f => f.follower_id == uid && f.following_id == tid) ⟨id1, uid, tid, ts1⟩ hmatch hrow
    simp only [toggle_follow, hne, hu0, hfind2]
    simp only [if_neg hne, List.filter_append]
    rw [filter_all_true fs _ (by intro y hy; simpa using hfresh y hy)]
    simp

/-- Claim C3: for every pair not yet in storage, toggling like twice or follow
twice with identical arguments restores the original storage state: the first
call creates exactly one row for the pair and the second deletes it. -/
theorem toggle_twice_roundtrip :
    (∀ (db : DB) (uid pid id1 id2 ts1 ts2 : Nat),
      (db.posts.find? (fun p => p.id == pid)).isSome = true →
      (∀ l ∈ db.likes, ¬(l.user_id = uid ∧ l.post_id = pid)) →
      (∀ l ∈ db.likes, l.id ≠ id1) →
      (toggle_like db (some uid) pid id1 ts1).1.likes = db.likes ++ [⟨id1, uid, pid, ts1⟩] ∧
      ((toggle_like db (some uid) pid id1 ts1).1.likes.filter
          (fun l => l.user_id == uid && l.post_id == pid)).length = 1 ∧
      (toggle_like (toggle_like db (some uid) pid id1 ts1).1 (some uid) pid id2 ts2).1 = db) ∧
    (∀ (db : DB) (uid tid id1 id2 ts1 ts2 : Nat),
      uid ≠ tid →
      (db.users.find? (fun u => u.id == tid)).isSome = true →
      (∀ f ∈ db.follows, ¬(f.follower_id = uid ∧ f.following_id = tid)) →
      (∀ f ∈ db.follows, f.id ≠ id1) →
      (toggle_follow db (some uid) tid id1 ts1).1.follows = db.follows ++ [⟨id1, uid, tid, ts1⟩] ∧
      ((toggle_follow db (some uid) tid id1 ts1).1.follows.filter
          (fun f => f.follower_id == uid && f.following_id == tid)).length = 1 ∧
      (toggle_follow (toggle_follow db (some uid) tid id1 ts1).1 (some uid) tid id2 ts2).1 = db) :=
  ⟨fun db uid pid id1 id2 ts1 ts2 h1 h2 h3 => toggle_like_roundtrip_aux db uid pid id1 id2 ts1 ts2 h1 h2 h3,
   fun db uid tid id1 id2 ts1 ts2 h0 h1 h2 h3 => toggle_follow_roundtrip_aux db uid tid id1 id2 ts1 ts2 h0 h1 h2 h3⟩

/-- Claim C3 witness: on a concrete state, like and follow of a fresh pair
followed by the inverse toggle restore the state exactly. -/
theorem toggle_twice_roundtrip_witness :
    ((toggle_like ⟨[⟨2, 8, none, "B", none, none, none, "", 0, 0⟩], [⟨1, 1, "p", none, 0, 0⟩], [], [], []⟩
        (some 1) 1 10 20).1.likes = [⟨10, 1, 1, 20⟩] ∧
     (toggle_like (toggle_like ⟨[⟨2, 8, none, "B", none, none, none, "", 0, 0⟩], [⟨1, 1, "p", none, 0, 0⟩], [], [], []⟩
        (some 1) 1 10 20).1 (some 1) 1 11 21).1 =
       ⟨[⟨2, 8, none, "B", none, none, none, "", 0, 0⟩], [⟨1, 1, "p", none, 0, 0⟩], [], [], []⟩) ∧
    ((toggle_follow ⟨[⟨2, 8, none, "B", none, none, none, "", 0, 0⟩], [⟨1, 1, "p", none, 0, 0⟩], [], [], []⟩
        (some 1) 2 10 20).1.follows = [⟨10, 1, 2, 20⟩] ∧
     (toggle_follow (toggle_follow ⟨[⟨2, 8, none, "B", none, none, none, "", 0, 0⟩], [⟨1, 1, "p", none, 0, 0⟩], [], [], []⟩
        (some 1) 2 10 20).1 (some 1) 2 11 21).1 =
       ⟨[⟨2, 8, none, "B", none, none, none, "", 0, 0⟩], [⟨1, 1, "p", none, 0, 0⟩], [], [], []⟩) := by
  have hl := toggle_twice_roundtrip.1 ⟨[⟨2, 8, none, "B", none, none, none, "", 0, 0⟩], [⟨1, 1, "p", none, 0, 0⟩], [], [], []⟩
    1 1 10 11 20 21 (by decide) (by decide) (by decide)
  have hf := toggle_twice_roundtrip.2 ⟨[⟨2, 8, none, "B", none, none, none, "", 0, 0⟩], [⟨1, 1, "p", none, 0, 0⟩], [], [], []⟩
    1 2 10 11 20 21 (by decide) (by decide) (by decide) (by decide)
  exact ⟨⟨hl.1, hl.2.2⟩, ⟨hf.1, hf.2.2⟩⟩

/-- Claim C10: the profile update changes at most the bio and updated_at of
the caller row: with unique primary keys, every user row either belongs to the
caller or is completely unchanged, every row preserves every field other than
bio and updated_at, and the posts, likes, comments and follows tables are
unchanged, whatever fields the request body carries. -/
theorem update_profile_frame (db : DB) (cu : Option Nat) (body : List (String × String)) (ts : Nat)
    (hnd : (db.users.map (fun x => x.id)).Nodup) :
    (update_profile db cu body ts).1.posts = db.posts ∧
    (update_profile db cu body ts).1.likes = db.likes ∧
    (update_profile db cu body ts).1.comments = db.comments ∧
    (update_profile db cu body ts).1.follows = db.follows ∧
    List.Forall₂ (fun x y => y.id = x.id ∧ y.telegram_id = x.telegram_id ∧ y.username = x.username ∧
      y.first_name = x.first_name ∧ y.last_name = x.last_name ∧ y.language_code = x.language_code ∧
      y.photo_url = x.photo_url ∧ y.created_at = x.created_at ∧
      (cu = some x.id ∨ y = x)) db.users (update_profile db cu body ts).1.users := by
  cases cu with
  | none =>
    exact ⟨rfl, rfl, rfl, rfl,
      List.forall₂_same.mpr (fun x _ => ⟨rfl, rfl, rfl, rfl, rfl, rfl, rfl, rfl, Or.inr rfl⟩)⟩
  | some uid =>
    cases hfind : db.users.find? (fun u => u.id == uid) with
    | none =>
      have hres : update_profile db (some uid) body ts = (db, ProfileResult.notFound) := by
        simp [update_profile, hfind]
      rw [hres]
      exact ⟨rfl, rfl, rfl, rfl,
        List.forall₂_same.mpr (fun x _ => ⟨rfl, rfl, rfl, rfl, rfl, rfl, rfl, rfl, Or.inr rfl⟩)⟩
    | some u =>
      have hu_mem : u ∈ db.users := List.mem_of_find?_eq_some hfind
      have huid : u.id = uid := by simpa using List.find?_some hfind
      have hres : update_profile db (some uid) body ts =
          ({ db with users := db.users.map (fun x =>
              if x.id == u.id then
                { u with
                  bio := match body.lookup "bio" with
                         | some b => b.take 160
                         | none => u.bio
                  updated_at := ts }
              else x) },
           ProfileResult.updated
             { u with
               bio := match body.lookup "bio" with
                      | some b => b.take 160
                      | none => u.bio
               updated_at := ts }) := by
        simp [update_profile, hfind]
      rw [hres]
      refine ⟨rfl, rfl, rfl, rfl, ?_⟩
      apply forall2_map_of_mem
      intro x hx
      by_cases hid : (x.id == u.id) = true
      · have hxe : x = u := mem_eq_of_nodup_keys db.users (fun y => y.id) hnd hx hu_mem (by simpa using hid)
        subst hxe
        simp [hid, huid]
      · simp [hid]

/-- Claim C10 witness: on a concrete two-user state with a body carrying bio
and an unrelated field, the tables and the non-caller row are unchanged and
the caller row keeps every field other than bio and updated_at. -/
theorem update_profile_frame_witness :
    (update_profile ⟨[⟨1, 7, some "u", "A", none, none, none, "old", 0, 0⟩,
        ⟨2, 8, none, "B", none, none, none, "keep", 0, 0⟩], [], [], [], []⟩ (some 1)
        [("bio", "new"), ("junk", "z")] 9).1.posts = [] ∧
    List.Forall₂ (fun (x y : UserRow) => y.id = x.id ∧ y.telegram_id = x.telegram_id ∧ y.username = x.username ∧
      y.first_name = x.first_name ∧ y.last_name = x.last_name ∧ y.language_code = x.language_code ∧
      y.photo_url = x.photo_url ∧ y.created_at = x.created_at ∧
      ((some 1 : Option Nat) = some x.id ∨ y = x))
      [⟨1, 7, some "u", "A", none, none, none, "old", 0, 0⟩,
       ⟨2, 8, none, "B", none, none, none, "keep", 0, 0⟩]
      (update_profile ⟨[⟨1, 7, some "u", "A", none, none, none, "old", 0, 0⟩,
        ⟨2, 8, none, "B", none, none, none, "keep", 0, 0⟩], [], [], [], []⟩ (some 1)
        [("bio", "new"), ("junk", "z")] 9).1.users ∧
    (update_profile ⟨[⟨1, 7, some "u", "A", none, none, none, "old", 0, 0⟩,
        ⟨2, 8, none, "B", none, none, none, "keep", 0, 0⟩], [], [], [], []⟩ (some 1)
        [("bio", "new"), ("junk", "z")] 9).1.users.drop 1 =
      [⟨2, 8, none, "B", none, none, none, "keep", 0, 0⟩] := by
  have h := update_profile_frame ⟨[⟨1, 7, some "u", "A", none, none, none, "old", 0, 0⟩,
      ⟨2, 8, none, "B", none, none, none, "keep", 0, 0⟩], [], [], [], []⟩
    (some 1) [("bio", "new"), ("junk", "z")] 9 (by decide)
  exact ⟨h.1, h.2.2.2.2, by decide⟩

/-- The items of a page are a sublist of the ordered row list. -/
lemma paginate_items_sublist (l : List PostRow) (page pp : Nat) :
    (paginate l page pp).items.Sublist l :=
  (List.take_sublist _ _).trans (List.drop_sublist _ _)

/-- A post that joins to at least one like has a positive like count. -/
lemma likeCount_pos_of_any (db : DB) (p : PostRow)
    (h : db.likes.any (fun l => l.post_id == p.id) = true) : 0 < likeCountOf db p.id := by
  rcases List.any_eq_true.mp h with ⟨l, hl, hp⟩
  have hmem : l ∈ db.likes.filter (fun l => l.post_id == p.id) := List.mem_filter.mpr ⟨hl, hp⟩
  exact List.length_pos.mpr (List.ne_nil_of_mem hmem)

/-- Claim C4: for every storage state, viewer and page, the trending feed
contains no post with zero likes, and its items are ordered by like count
descending with creation time descending as the tie-break. -/
theorem trending_positive_likes_and_sorted (db : DB) (cu : Option Nat) (page pp : Nat) :
    (∀ p ∈ (get_posts db cu "trending" page pp).items, 0 < likeCountOf db p.id) ∧
    (get_posts db cu "trending" page pp).items.Pairwise (trendOrder db) := by
  have hgp : get_posts db cu "trending" page pp =
      paginate (List.insertionSort (trendOrder db)
        (db.posts.filter (fun q => db.likes.any (fun l => l.post_id == q.id)))) page pp := rfl
  rw [hgp]
  constructor
  · intro p hp
    have hp1 : p ∈ List.insertionSort (trendOrder db)
        (db.posts.filter (fun q => db.likes.any (fun l => l.post_id == q.id))) :=
      (paginate_items_sublist _ page pp).subset hp
    have hp2 : p ∈ db.posts.filter (fun q => db.likes.any (fun l => l.post_id == q.id)) :=
      (List.perm_insertionSort (trendOrder db) _).subset hp1
    exact likeCount_pos_of_any db p (List.mem_filter.mp hp2).2
  · exact List.Pairwise.sublist (paginate_items_sublist _ page pp)
      (List.sorted_insertionSort (trendOrder db) _)

/-- Claim C4 witness: with one liked and one unliked post, the trending page
contains the liked post, whose like count is positive, and is ordered. -/
theorem trending_witness :
    0 < likeCountOf ⟨[], [⟨1, 1, "a", none, 0, 0⟩, ⟨2, 1, "b", none, 1, 1⟩], [⟨1, 9, 1, 0⟩], [], []⟩
        (⟨1, 1, "a", none, 0, 0⟩ : PostRow).id ∧
    (get_posts ⟨[], [⟨1, 1, "a", none, 0, 0⟩, ⟨2, 1, "b", none, 1, 1⟩], [⟨1, 9, 1, 0⟩], [], []⟩
        none "trending" 1 20).items = [⟨1, 1, "a", none, 0, 0⟩] := by
  refine ⟨?_, by decide⟩
  exact (trending_positive_likes_and_sorted
    ⟨[], [⟨1, 1, "a", none, 0, 0⟩, ⟨2, 1, "b", none, 1, 1⟩], [⟨1, 9, 1, 0⟩], [], []⟩ none 1 20).1
    ⟨1, 1, "a", none, 0, 0⟩ (by decide)

/-- Claim C9: listing the comments of an existing post returns exactly the
comments whose post reference is that post, ordered by creation time
descending. -/
theorem comments_complete_and_sorted (db : DB) (pid : Nat) (cs : List CommentRow)
    (h : get_comments db pid = some cs) :
    (∀ c, c ∈ cs ↔ (c ∈ db.comments ∧ c.post_id = pid)) ∧ cs.Pairwise commentOrder := by
  unfold get_comments at h
  cases hfind : db.posts.find? (fun p => p.id == pid) with
  | none => rw [hfind] at h; cases h
  | some p0 =>
    rw [hfind] at h
    have hcs : List.insertionSort commentOrder (db.comments.filter (fun c => c.post_id == pid)) = cs :=
      Option.some_injective _ h
    constructor
    · intro c
      rw [← hcs]
      constructor
      · intro hc
        have hm := (List.perm_insertionSort commentOrder _).subset hc
        have hf := List.mem_filter.mp hm
        exact ⟨hf.1, by simpa using hf.2⟩
      · rintro ⟨hc1, hc2⟩
        exact (List.perm_insertionSort commentOrder _).mem_iff.mpr
          (List.mem_filter.mpr ⟨hc1, by simpa using hc2⟩)
    · rw [← hcs]
      exact List.sorted_insertionSort commentOrder _

/-- Claim C9 witness: on a concrete state the comment list of post 1 holds
exactly its two comments, newest first. -/
theorem comments_complete_witness :
    (∀ c, c ∈ ([⟨2, 5, 1, "c2", 7, 7⟩, ⟨1, 5, 1, "c1", 3, 3⟩] : List CommentRow) ↔
      (c ∈ ([⟨1, 5, 1, "c1", 3, 3⟩, ⟨2, 5, 1, "c2", 7, 7⟩, ⟨3, 5, 2, "other", 1, 1⟩] : List CommentRow) ∧
       c.post_id = 1)) ∧
    ([⟨2, 5, 1, "c2", 7, 7⟩, ⟨1, 5, 1, "c1", 3, 3⟩] : List CommentRow).Pairwise commentOrder := by
  exact comments_complete_and_sorted
    ⟨[], [⟨1, 1, "p", none, 0, 0⟩], [],
     [⟨1, 5, 1, "c1", 3, 3⟩, ⟨2, 5, 1, "c2", 7, 7⟩, ⟨3, 5, 2, "other", 1, 1⟩], []⟩ 1
    [⟨2, 5, 1, "c2", 7, 7⟩, ⟨1, 5, 1, "c1", 3, 3⟩] (by rfl)

/-- Splitting never yields the empty list of chunks. -/
lemma splitByte_ne_nil (sep : Nat) (s : Bytes) : splitByte sep s ≠ [] := by
  cases s with
  | nil => simp [splitByte]
  | cons b rest =>
    by_cases hb : b = sep
    · simp [splitByte, hb]
    · simp only [splitByte, hb, if_false]
      cases h : splitByte sep rest <;> simp

/-- Splitting a chunk free of the separator yields that one chunk. -/
lemma splitByte_no_sep (sep : Nat) (x : Bytes) (hx : sep ∉ x) : splitByte sep x = [x] := by
  induction x with
  | nil => rfl
  | cons b rest ih =>
    rw [List.mem_cons] at hx
    push_neg at hx
    have hb : ¬(b = sep) := fun h => hx.1 h.symm
    have iht := ih hx.2
    simp [splitByte, hb, iht]

/-- Splitting after a separator-free chunk peels that chunk off. -/
lemma splitByte_append_sep (sep : Nat) (x rest : Bytes) (hx : sep ∉ x) :
    splitByte sep (x ++ sep :: rest) = x :: splitByte sep rest := by
  induction x with
  | nil => simp [splitByte]
  | cons b t ih =>
    rw [List.mem_cons] at hx
    push_neg at hx
    have hb : ¬(b = sep) := fun h => hx.1 h.symm
    have iht := ih hx.2
    simp only [List.cons_append, splitByte, hb, if_false, List.append_eq, iht]

/-- Splitting inverts joining when no chunk holds the separator. -/
lemma splitByte_joinBytes (sep : Nat) (fields : List Bytes)
    (hamp : ∀ f ∈ fields, sep ∉ f) (hne : fields ≠ []) :
    splitByte sep (joinBytes sep fields) = fields := by
  induction fields with
  | nil => exact absurd rfl hne
  | cons x t ih =>
    cases t with
    | nil => exact splitByte_no_sep sep x (hamp x (by simp))
    | cons y t2 =>
      have h1 : joinBytes sep (x :: y :: t2) = x ++ sep :: joinBytes sep (y :: t2) := rfl
      rw [h1, splitByte_append_sep sep x _ (hamp x (by simp))]
      rw [ih (fun f hf => hamp f (by simp [hf])) (by simp)]

/-- Parsing a join of separator-free raw fields parses each field. -/
lemma parse_qsl_join (fields : List Bytes) (hamp : ∀ f ∈ fields, (38 : Nat) ∉ f) :
    parse_qsl (joinBytes 38 fields) = fields.filterMap chunkParse := by
  cases hne : fields with
  | nil => simp [parse_qsl, joinBytes, splitByte, chunkParse]
  | cons x t =>
    unfold parse_qsl
    rw [← hne, splitByte_joinBytes 38 fields hamp (by rw [hne]; simp)]

/-- Inserting a fresh key appends it at the end of the mapping. -/
lemma insertKV_not_mem (acc : List (Bytes × List Bytes)) (k : Bytes) (v : Bytes)
    (hk : ∀ e ∈ acc, e.1 ≠ k) : insertKV acc k v = acc ++ [(k, [v])] := by
  induction acc with
  | nil => rfl
  | cons e rest ih =>
    obtain ⟨k1, vs⟩ := e
    have h1 : k1 ≠ k := hk (k1, vs) (by simp)
    simp only [insertKV, h1, if_false]
    rw [ih (fun e he => hk e (by simp [he]))]
    simp

/-- Grouping pairs with pairwise distinct names wraps each value in a
singleton list, in order. -/
lemma foldl_insertKV_nodup (kvs : List (Bytes × Bytes)) (acc : List (Bytes × List Bytes))
    (hnd : (kvs.map Prod.fst).Nodup)
    (hdisj : ∀ e ∈ acc, ∀ kv ∈ kvs, e.1 ≠ kv.1) :
    kvs.foldl (fun acc kv => insertKV acc kv.1 kv.2) acc =
      acc ++ kvs.map (fun kv => (kv.1, [kv.2])) := by
  induction kvs generalizing acc with
  | nil => simp
  | cons kv rest ih =>
    simp only [List.map_cons, List.nodup_cons] at hnd
    simp only [List.foldl_cons]
    rw [insertKV_not_mem acc kv.1 kv.2 (fun e he => hdisj e he kv (by simp))]
    have hdisj2 : ∀ e ∈ acc ++ [(kv.1, [kv.2])], ∀ kv2 ∈ rest, e.1 ≠ kv2.1 := by
      intro e he kv2 hkv2
      rcases List.mem_append.mp he with he1 | he1
      · exact hdisj e he1 kv2 (by simp [hkv2])
      · have he2 : e = (kv.1, [kv.2]) := by simpa using he1
        rw [he2]
        intro hcontra
        exact hnd.1 (hcontra ▸ List.mem_map_of_mem Prod.fst hkv2)
    rw [ih (acc ++ [(kv.1, [kv.2])]) hnd.2 hdisj2]
    simp

/-- Searching is stable under permutation when at most one element matches. -/
lemma find?_perm_of_nodup {α : Type} (p : α → Bool) {l1 l2 : List α} (hperm : l1.Perm l2)
    (huniq : ∀ x ∈ l1, ∀ y ∈ l1, p x = true → p y = true → x = y) :
    l1.find? p = l2.find? p := by
  cases h1 : l1.find? p with
  | none =>
    cases h2 : l2.find? p with
    | none => rfl
    | some y =>
      exact absurd (List.find?_some h2)
        (List.find?_eq_none.mp h1 y (hperm.mem_iff.mpr (List.mem_of_find?_eq_some h2)))
  | some x =>
    cases h2 : l2.find? p with
    | none =>
      exact absurd (List.find?_some h1)
        (List.find?_eq_none.mp h2 x (hperm.mem_iff.mp (List.mem_of_find?_eq_some h1)))
    | some y =>
      have hx := List.mem_of_find?_eq_some h1
      have hy := hperm.mem_iff.mpr (List.mem_of_find?_eq_some h2)
      rw [huniq x hx y hy (List.find?_some h1) (List.find?_some h2)]

/-- Dictionary lookups agree across permutations of a nodup-keyed pair list. -/
lemma getVals_perm_eq (kvs kvs2 : List (Bytes × Bytes)) (hkvperm : kvs.Perm kvs2)
    (hnd : (kvs.map Prod.fst).Nodup) (k : Bytes) :
    getVals (kvs.map (fun kv => (kv.1, [kv.2]))) k =
    getVals (kvs2.map (fun kv => (kv.1, [kv.2]))) k := by
  unfold getVals
  have hnd1 : ((kvs.map (fun kv => (kv.1, [kv.2]))).map Prod.fst).Nodup := by
    rw [List.map_map]
    simpa [Function.comp] using hnd
  rw [find?_perm_of_nodup _ (hkvperm.map _) ?_]
  intro x hx y hy hpx hpy
  exact mem_eq_of_nodup_keys _ Prod.fst hnd1 hx hy
    ((of_decide_eq_true hpx).trans (of_decide_eq_true hpy).symm)

/-- The check lines of a grouped mapping with singleton values. -/
lemma checkLines_map (kvs : List (Bytes × Bytes)) :
    checkLines (kvs.map (fun kv => (kv.1, [kv.2]))) =
    kvs.filterMap (fun kv => if kv.1 = strBytes "hash" then none else some (kv.1 ++ 61 :: kv.2)) := by
  induction kvs with
  | nil => rfl
  | cons kv rest ih =>
    unfold checkLines at ih ⊢
    simp only [List.map_cons, List.filterMap_cons]
    by_cases h : kv.1 = strBytes "hash" <;> simp [h, ih]

/-- Sorting two permuted line lists gives the same sorted list. -/
lemma insertionSort_eq_of_perm (l1 l2 : List Bytes) (h : l1.Perm l2) :
    List.insertionSort (· ≤ ·) l1 = List.insertionSort (· ≤ ·) l2 := by
  haveI : IsAntisymm Bytes (· ≤ ·) := ⟨fun a b h1 h2 => le_antisymm h1 h2⟩
  exact List.eq_of_perm_of_sorted
    ((List.perm_insertionSort _ l1).trans (h.trans (List.perm_insertionSort _ l2).symm))
    (List.sorted_insertionSort _ l1) (List.sorted_insertionSort _ l2)

/-- The verifier is a function of the hash lookup, the user lookup and the
sorted check lines of the parsed mapping. -/
lemma validateParsed_congr {d d2 : List (Bytes × List Bytes)} (secret : Bytes)
    (hhash : getVals d (strBytes "hash") = getVals d2 (strBytes "hash"))
    (huser : getVals d (strBytes "user") = getVals d2 (strBytes "user"))
    (hlines : List.insertionSort (· ≤ ·) (checkLines d) = List.insertionSort (· ≤ ·) (checkLines d2)) :
    validateParsed d secret = validateParsed d2 secret := by
  unfold validateParsed receivedHash extractUser dataCheckString
  rw [hhash, huser, hlines]

/-- Claim C8: for payloads that are joins of the same raw fields in any order,
with separator-free fields and pairwise distinct parsed names, verification is
invariant under the permutation: only the sorted order of the check lines is
canonical. -/
theorem validate_permutation_invariant (fields fields2 : List Bytes) (secret : Bytes)
    (hperm : fields.Perm fields2)
    (hamp : ∀ f ∈ fields, (38 : Nat) ∉ f)
    (hnd : ((fields.filterMap chunkParse).map Prod.fst).Nodup) :
    validate_telegram_data (joinBytes 38 fields) secret =
    validate_telegram_data (joinBytes 38 fields2) secret := by
  have hamp2 : ∀ f ∈ fields2, (38 : Nat) ∉ f := fun f hf => hamp f (hperm.mem_iff.mpr hf)
  have hkvperm : (fields.filterMap chunkParse).Perm (fields2.filterMap chunkParse) :=
    hperm.filterMap chunkParse
  have hnd2 : ((fields2.filterMap chunkParse).map Prod.fst).Nodup :=
    ((hkvperm.map Prod.fst).nodup_iff).mp hnd
  have hq1 : parse_qs (joinBytes 38 fields) =
      (fields.filterMap chunkParse).map (fun kv => (kv.1, [kv.2])) := by
    unfold parse_qs
    rw [parse_qsl_join fields hamp]
    simpa using foldl_insertKV_nodup (fields.filterMap chunkParse) [] hnd (by simp)
  have hq2 : parse_qs (joinBytes 38 fields2) =
      (fields2.filterMap chunkParse).map (fun kv => (kv.1, [kv.2])) := by
    unfold parse_qs
    rw [parse_qsl_join fields2 hamp2]
    simpa using foldl_insertKV_nodup (fields2.filterMap chunkParse) [] hnd2 (by simp)
  unfold validate_telegram_data
  rw [hq1, hq2]
  apply validateParsed_congr
  · exact getVals_perm_eq _ _ hkvperm hnd _
  · exact getVals_perm_eq _ _ hkvperm hnd _
  · rw [checkLines_map, checkLines_map]
    exact insertionSort_eq_of_perm _ _ (hkvperm.filterMap _)

/-- Claim C8 witness: reordering the raw fields of a concrete payload with
distinct names leaves the verification result unchanged. -/
theorem validate_permutation_witness :
    validate_telegram_data (joinBytes 38 [strBytes "b=2", strBytes "a=1", strBytes "hash=00"]) (strBytes "S") =
    validate_telegram_data (joinBytes 38 [strBytes "a=1", strBytes "hash=00", strBytes "b=2"]) (strBytes "S") :=
  validate_permutation_invariant
    [strBytes "b=2", strBytes "a=1", strBytes "hash=00"]
    [strBytes "a=1", strBytes "hash=00", strBytes "b=2"]
    (strBytes "S") (by decide) (by decide) (by decide)

/-- Claim C1 amended: verification never succeeds unless the signature
recomputed per the spec algorithm equals the supplied nonempty hash value (a
payload with no hash field, or a differing hash, always fails); a matching
hash alone is not sufficient, as success further requires the user field to be
present and to parse as JSON after URL-decoding. -/
theorem validate_isSome_iff (init_data bot_token : Bytes) :
    validate_telegram_data init_data bot_token ≠ none ↔
      (∃ r, receivedHash (parse_qs init_data) = some r ∧ r ≠ [] ∧
        r = specSignature bot_token (dataCheckString (parse_qs init_data)) ∧
        extractUser (parse_qs init_data) ≠ none) := by
  unfold validate_telegram_data validateParsed specSignature specSecretKey
  cases h : receivedHash (parse_qs init_data) with
  | none => simp
  | some r =>
    by_cases hr : r = []
    · simp [hr]
    · by_cases hc : bytesToHex (hmacSha256 (hmacSha256 (strBytes "WebAppData") bot_token)
          (dataCheckString (parse_qs init_data))) = r
      · simp only [hr, if_false, hc, if_true, ne_eq, Option.some.injEq]
        constructor
        · intro he
          exact ⟨r, rfl, hr, rfl, he⟩
        · rintro ⟨r2, rfl, _, _, h4⟩
          exact h4
      · simp only [hr, if_false, hc, ne_eq, Option.some.injEq]
        constructor
        · intro he
          exact absurd trivial he
        · rintro ⟨r2, rfl, _, h3, _⟩
          exact absurd h3.symm hc

set_option maxRecDepth 1000000 in
/-- Claim C1 counterexample: on the concrete payload auth_date=1 with the
correct hash for the shared secret S, the signature recomputed per the spec
equals the supplied hash, yet verification fails, because the payload has no
user field; so success is not equivalent to a matching hash. -/
theorem validate_matching_hash_without_user_fails :
    receivedHash (parse_qs (strBytes "auth_date=1&hash=ec236446c3b66d2faf9896cf586659770d912938dc5870f16e33116ecc3d5bdb")) =
      some (specSignature (strBytes "S")
        (dataCheckString (parse_qs (strBytes "auth_date=1&hash=ec236446c3b66d2faf9896cf586659770d912938dc5870f16e33116ecc3d5bdb")))) ∧
    validate_telegram_data (strBytes "auth_date=1&hash=ec236446c3b66d2faf9896cf586659770d912938dc5870f16e33116ecc3d5bdb")
      (strBytes "S") = none := by
  constructor
  · decide
  · rfl

end TelX
